import Mathlib

set_option maxRecDepth 4000

/-!
Verification of the OrChat CLI client core against its specification.

This file gives a shallow embedding, in Lean 4, of the core routines of the
repository:

* `manage_context_window` (src/chat.py, lines 151-186),
* `stream_response` (src/chat.py, lines 24-149), restricted to the data it
  computes from the decoded stream events (visible content, thinking content,
  usage info),
* the send-turn fragment of `chat_with_model` (src/chat.py, lines 893-1094),
* `encrypt_api_key` / `decrypt_api_key` (src/config.py, lines 15-24),
* `get_models_by_capability` (src/api_client.py, lines 68-126),
* `count_tokens` (src/utils.py, lines 26-36, and
  src/src/utils/text_utils.py, lines 67-94).

External collaborators are abstracted in the standard way for a shallow
embedding: the token counter `count_tokens` is an arbitrary function
`String → Nat` wherever it is merely called (its own fallback structure is
embedded separately), the Fernet primitive of the `cryptography` package is
modelled by its documented contract, JSON decoding is abstracted by feeding
the parser already-decoded stream events, and the `float` parse of price
strings is modelled by the parsed rational value.  Python code that can raise
is embedded as an `Option`-returning function, with `none` for the raising
outcome.
-/

/-- A message role.  In the Python code roles are the strings `"system"`,
`"user"` and `"assistant"`; the chat loop only ever constructs these three. -/
inductive Role where
  | system
  | user
  | assistant
deriving DecidableEq, Repr

/-- A conversation message, `{"role": ..., "content": ...}` in the Python
code.  Content is modelled as a string (the multimodal structured case does
not occur in the routines verified here). -/
structure Message where
  role : Role
  content : String
deriving DecidableEq, Repr

/-- Total token count of a history: `sum(count_tokens(msg["content"], ...)
for msg in conversation_history)` in `manage_context_window`, with the token
counter abstracted as `tc`. -/
def tokenSum (tc : String → Nat) (l : List Message) : Nat :=
  (l.map fun m => tc m.content).sum

/-- The greedy keep/drop walk of `manage_context_window` (src/chat.py,
lines 173-179).  The input list is the non-system messages most-recent-first
(`reversed(messages_to_consider)`); `cur` is `current_tokens`.  Returns the
kept messages in chronological order (each kept message is inserted right
after the system message, i.e. at the front of the accumulator), the final
`current_tokens`, and `trimmed_count`.  The guard
`current_tokens + msg_tokens < max_tokens - 1000` is over Python integers,
hence stated in `Int`. -/
def trimLoop (tc : String → Nat) (maxT : Nat) :
    List Message → Nat → List Message × Nat × Nat
  | [], cur => ([], cur, 0)
  | m :: rest, cur =>
    if (cur : Int) + (tc m.content : Int) < (maxT : Int) - 1000 then
      let r := trimLoop tc maxT rest (cur + tc m.content)
      (r.1 ++ [m], r.2.1, r.2.2)
    else
      let r := trimLoop tc maxT rest cur
      (r.1, r.2.1, r.2.2 + 1)

/-- The synthesized system note of src/chat.py line 183. -/
def trimNote (d : Nat) : Message :=
  ⟨Role.system,
    "Note: " ++ toString d ++
      " earlier messages have been removed to stay within the context window."⟩

/-- `manage_context_window` (src/chat.py, lines 151-186).  The function reads
`conversation_history[0]` unconditionally, so the empty history raises an
`IndexError`; in this total embedding that is `none`.  `tc` abstracts
`count_tokens` at the fixed `model_name` argument. -/
def manage_context_window (tc : String → Nat) (history : List Message)
    (maxT : Nat) : Option (List Message × Nat) :=
  match history with
  | [] => none
  | system :: rest =>
    let total := tokenSum tc (system :: rest)
    if total ≤ maxT then some (system :: rest, 0)
    else
      let r := trimLoop tc maxT rest.reverse (tc system.content)
      if 0 < r.2.2 then some (system :: trimNote r.2.2 :: r.1, r.2.2)
      else some (system :: r.1, r.2.2)

/-- Remove the synthesized trimming notice from a result of
`manage_context_window`: when the dropped count is positive the notice sits
at index 1, right after the original system message. -/
def excludeNote (r : List Message) (d : Nat) : List Message :=
  if 0 < d then r.take 1 ++ r.drop 2 else r

example : manage_context_window (fun s => s.length)
    [⟨Role.system, "ab"⟩, ⟨Role.user, "cd"⟩] 100
    = some ([⟨Role.system, "ab"⟩, ⟨Role.user, "cd"⟩], 0) := by decide

example : manage_context_window (fun s => s.length)
    [⟨Role.system, "ab"⟩, ⟨Role.user, "cdef"⟩, ⟨Role.assistant, "gh"⟩] 5
    = some ([⟨Role.system, "ab"⟩, trimNote 2], 2) := by decide

/-! ### String utilities used by `stream_response`

Python's `pat in s`, `s.split(pat, 1)`, `s.strip()`, and the two scans of the
regex `<thinking>(.*?)</thinking>` (with `re.DOTALL`): `findall` and `sub`.
All are implemented on `List Char` and lifted to `String`. -/

/-- Split a character list at the first occurrence of `pat`, returning the
part before the occurrence and the part after it (the occurrence removed).
`none` when `pat` does not occur.  For nonempty `pat` this is Python's
`s.split(pat, 1)` (and `(· ).isSome` is Python's `pat in s`). -/
def splitFirstList (pat : List Char) : List Char → Option (List Char × List Char)
  | [] => if pat.isPrefixOf ([] : List Char) then some ([], []) else none
  | c :: cs =>
    if pat.isPrefixOf (c :: cs) then some ([], (c :: cs).drop pat.length)
    else
      match splitFirstList pat cs with
      | some (pre, post) => some (c :: pre, post)
      | none => none

/-- `String` version of `splitFirstList`. -/
def splitFirstStr (pat s : String) : Option (String × String) :=
  match splitFirstList pat.toList s.toList with
  | some (pre, post) => some (String.mk pre, String.mk post)
  | none => none

/-- Python's substring test `pat in s` (for nonempty `pat`). -/
def containsSubStr (pat s : String) : Bool :=
  (splitFirstStr pat s).isSome

/-- The characters removed by Python's `str.strip()` with no argument
(ASCII whitespace; the exotic Unicode spaces do not occur here). -/
def isPySpace (c : Char) : Bool :=
  c = ' ' || c = '\t' || c = '\n' || c = '\r' || c = '\x0b' || c = '\x0c'

/-- Python's `s.strip()`. -/
def pyStrip (s : String) : String :=
  String.mk (((s.toList.dropWhile isPySpace).reverse.dropWhile isPySpace).reverse)

/-- The opening thinking tag. -/
def thinkOpen : String := "<thinking>"

/-- The closing thinking tag. -/
def thinkClose : String := "</thinking>"

/-- One step of the left-to-right scan of the non-greedy regex
`<thinking>(.*?)</thinking>` under `re.DOTALL`: each match starts at the next
`<thinking>` and ends at the first `</thinking>` after it; scanning resumes
after the closing tag.  `findSpansAux` collects the captured groups
(`re.findall`, src/chat.py line 108); fuel bounds the recursion. -/
def findSpansAux (openT closeT : List Char) : Nat → List Char → List String
  | 0, _ => []
  | fuel + 1, s =>
    match splitFirstList openT s with
    | none => []
    | some (_, rest) =>
      match splitFirstList closeT rest with
      | none => []
      | some (mid, rest2) => String.mk mid :: findSpansAux openT closeT fuel rest2

/-- Same scan, erasing each match (`re.sub(pattern, '', s)`, src/chat.py
line 131).  A `<thinking>` with no later `</thinking>` matches nothing and is
left in place. -/
def stripSpansAux (openT closeT : List Char) : Nat → List Char → List Char
  | 0, s => s
  | fuel + 1, s =>
    match splitFirstList openT s with
    | none => s
    | some (pre, rest) =>
      match splitFirstList closeT rest with
      | none => s
      | some (_, rest2) => pre ++ stripSpansAux openT closeT fuel rest2

/-- `re.findall(r'<thinking>(.*?)</thinking>', s, re.DOTALL)`. -/
def findThinkingSpans (s : String) : List String :=
  findSpansAux thinkOpen.toList thinkClose.toList (s.length + 1) s.toList

/-- `re.sub(r'<thinking>.*?</thinking>', '', s, flags=re.DOTALL)`. -/
def stripThinkingSpans (s : String) : String :=
  String.mk (stripSpansAux thinkOpen.toList thinkClose.toList (s.length + 1) s.toList)

example : findThinkingSpans "a<thinking>x</thinking>b<thinking>y</thinking>c"
    = ["x", "y"] := by decide

example : stripThinkingSpans "a<thinking>x</thinking>b<thinking>y</thinking>c"
    = "abc" := by decide

example : stripThinkingSpans "a<thinking>x" = "a<thinking>x" := by decide

/-! ### The streaming response parser (`stream_response`, src/chat.py 24-149) -/

/-- The usage summary optionally carried by a stream event
(`chunk_data['usage']`). -/
structure UsageInfo where
  prompt_tokens : Nat := 0
  completion_tokens : Nat := 0
  total_tokens : Nat := 0
deriving DecidableEq, Repr

/-- One decoded line of the streaming response, after the prefix/sentinel
handling of src/chat.py lines 44-60.  `keepAlive` covers empty lines and
`OPENROUTER PROCESSING` comments, `done` the `[DONE]` sentinel, `malformed` a
line that fails JSON decoding, and `event` a decoded payload — `usage` is the
optional usage summary and `content` the delta text, with `""` when the
payload carries no delta (`choices` missing or empty, or no
`content`/`text`). -/
inductive StreamChunk where
  | keepAlive
  | done
  | malformed
  | event (usage : Option UsageInfo) (content : String)
deriving DecidableEq, Repr

/-- The mutable state of the chunk loop of `stream_response`:
`full_content`, `thinking_content`, `in_thinking` and `collected_content`. -/
structure StreamState where
  full : String := ""
  thinking : String := ""
  inThinking : Bool := false
  collected : List String := []
deriving DecidableEq, Repr

/-- The per-delta processing of src/chat.py lines 70-98, for a non-empty
`content`.  The delta is always appended to `full_content`; with thinking
mode on, a delta containing `<thinking>` switches the state machine into
thinking (everything after the first tag goes to the thinking accumulator,
nothing is displayed), else a delta containing `</thinking>` switches it back
(everything before the first tag goes to the accumulator), else in thinking
the whole delta is accumulated; otherwise the delta is queued for display. -/
def processContent (thinkingMode : Bool) (st : StreamState) (content : String) :
    StreamState :=
  let st := { st with full := st.full ++ content }
  if thinkingMode then
    match splitFirstStr thinkOpen content with
    | some (_, aft) =>
      { st with inThinking := true, thinking := st.thinking ++ aft }
    | none =>
      match splitFirstStr thinkClose content with
      | some (bef, _) =>
        { st with inThinking := false, thinking := st.thinking ++ bef }
      | none =>
        if st.inThinking then { st with thinking := st.thinking ++ content }
        else { st with collected := st.collected ++ [content] }
  else { st with collected := st.collected ++ [content] }

/-- One iteration of the chunk loop (src/chat.py lines 44-101): non-event
lines are skipped, a usage summary overwrites the previous one (last writer
wins), and a non-empty content delta (`if content:`) is processed. -/
def processChunk (thinkingMode : Bool) (acc : StreamState × Option UsageInfo)
    (ch : StreamChunk) : StreamState × Option UsageInfo :=
  match ch with
  | .keepAlive => acc
  | .done => acc
  | .malformed => acc
  | .event u c =>
    let usage := match u with
      | some x => some x
      | none => acc.2
    let st := if c ≠ "" then processContent thinkingMode acc.1 c else acc.1
    (st, usage)

/-- The chunk loop run from the initial state. -/
def runStream (thinkingMode : Bool) (chunks : List StreamChunk) :
    StreamState × Option UsageInfo :=
  chunks.foldl (processChunk thinkingMode) (⟨"", "", false, []⟩, none)

/-- The fixed fallback greeting of src/chat.py line 141. -/
def fallbackGreeting : String := "Hello! I'm here to help you."

/-- The cleaned display text before the empty-content fallback (src/chat.py
lines 126-137): with thinking mode on and an opening tag present in the full
buffer, every `<thinking>...</thinking>` span is erased and the result
stripped of surrounding whitespace; otherwise the full buffer unchanged.
(The `except` fallback of lines 133-137 is unreachable: `re.sub` does not
raise here.) -/
def cleanedBeforeFallback (thinkingMode : Bool) (full : String) : String :=
  if thinkingMode && containsSubStr thinkOpen full then
    pyStrip (stripThinkingSpans full)
  else full

/-- The post-stream phase of `stream_response` (src/chat.py lines 105-146):
the authoritative regex pass over the full buffer decides the thinking
content (joined with newlines); when it finds nothing (or thinking mode is
off), a non-blank incremental accumulator is used instead; `none` means the
global `last_thinking_content` is left unchanged.  The cleaned text falls
back to the fixed greeting when blank. -/
def finalizeStream (thinkingMode : Bool) (st : StreamState) :
    String × Option String :=
  let found := findThinkingSpans st.full
  let thinkingOut :=
    if thinkingMode && !found.isEmpty then
      some (String.intercalate "\n" found)
    else if pyStrip st.thinking ≠ "" then some st.thinking
    else none
  let cleaned := cleanedBeforeFallback thinkingMode st.full
  let cleaned := if pyStrip cleaned = "" then fallbackGreeting else cleaned
  (cleaned, thinkingOut)

/-- `stream_response` (src/chat.py lines 24-149), as a function of the
decoded stream events: returns the cleaned visible content, the thinking
content recorded into `last_thinking_content` (`none` when unchanged), and
the usage info.  The wall-clock response time is not modelled. -/
def stream_response (thinkingMode : Bool) (chunks : List StreamChunk) :
    String × Option String × Option UsageInfo :=
  let r := runStream thinkingMode chunks
  let f := finalizeStream thinkingMode r.1
  (f.1, f.2, r.2)

example : (stream_response true [.event none "a<thinking>x</thinking>b"]).1
    = "ab" := by decide

example : (stream_response true [.event none "a<thinking>x</thinking>b"]).2.1
    = some "x" := by decide

/-! ### Credential store (src/config.py, lines 11-24) -/

/-- Modelled from the spec: the token produced by `Fernet(key).encrypt` from
the external `cryptography` package (excluded from the repository).  Fernet
is authenticated symmetric encryption: decrypting a token with the key that
produced it returns the original plaintext, and decrypting with any other
key raises `InvalidToken` (the negligible HMAC-collision probability is
idealised away).  The token is modelled as the pair of the producing key and
the plaintext; keys (`Fernet.generate_key()` values) are abstracted as `Nat`. -/
structure FernetToken where
  key : Nat
  plaintext : String
deriving DecidableEq, Repr

/-- Modelled from the spec: `Fernet(key).encrypt(msg)`. -/
def fernetEncrypt (key : Nat) (msg : String) : FernetToken :=
  ⟨key, msg⟩

/-- Modelled from the spec: `Fernet(key).decrypt(tok)`; `none` models the
`InvalidToken` exception raised on a key mismatch or corrupted token. -/
def fernetDecrypt (key : Nat) (tok : FernetToken) : Option String :=
  if tok.key = key then some tok.plaintext else none

/-- `encrypt_api_key` (src/config.py, lines 15-17): encrypt the UTF-8 bytes
of the API key under the master key (the `encode`/`decode` byte round trip is
absorbed into the `String` plaintext). -/
def encrypt_api_key (api_key : String) (key : Nat) : FernetToken :=
  fernetEncrypt key api_key

/-- `decrypt_api_key` (src/config.py, lines 19-24): decrypt, converting any
exception (`InvalidToken`, decode failure) into `None` via the blanket
`except Exception:` handler. -/
def decrypt_api_key (encrypted_key : FernetToken) (key : Nat) : Option String :=
  fernetDecrypt key encrypted_key

/-! ### Token counter (src/utils.py 26-36 and src/src/utils/text_utils.py 67-94) -/

/-- The ambient `tiktoken` library, abstracted: `encodingForModel` is
`tiktoken.encoding_for_model` (`none` models the `KeyError` raised for an
unknown model), `cl100kBase` is `tiktoken.get_encoding("cl100k_base")`; an
encoding is abstracted by the composite `text ↦ len(encoding.encode(text))`. -/
structure TokenizerEnv where
  encodingForModel : String → Option (String → Nat)
  cl100kBase : String → Nat

/-- `count_tokens` (src/utils.py, lines 26-36): use the model-specific
encoding, falling back to the default `cl100k_base` encoding when
`encoding_for_model` raises `KeyError`. -/
def count_tokens (env : TokenizerEnv) (text : String) (model_name : String) : Nat :=
  match env.encodingForModel model_name with
  | some enc => enc text
  | none => env.cl100kBase text

/-- `count_tokens` of src/src/utils/text_utils.py (lines 67-94): identical,
except that when the `tiktoken` import failed (`HAS_TIKTOKEN` false) it
returns the fixed-ratio estimate `len(text) // 4`. -/
def text_utils_count_tokens (hasTiktoken : Bool) (env : TokenizerEnv)
    (text : String) (model_name : String) : Nat :=
  if !hasTiktoken then text.length / 4
  else
    match env.encodingForModel model_name with
    | some enc => enc text
    | none => env.cl100kBase text

/-! ### Model catalog filtering (`get_models_by_capability`, src/api_client.py 68-126) -/

/-- The `pricing` sub-dictionary of an endpoint.  `prompt` is the parsed
numeric value of the price string `pricing['prompt']`
(`float(pricing.get('prompt', '0'))`); `none` models an absent key, which
defaults to `'0'`. -/
structure ModelPricing where
  prompt : Option ℚ := none
deriving DecidableEq

/-- The `endpoint` sub-dictionary of an enhanced model record; only the
fields read by `get_models_by_capability`.  `reasoningConfig` is the
truthiness of `endpoint.get('reasoning_config')`; `pricing` is `none` when
the key is absent or null (both are treated as `{}` by the code). -/
structure ModelEndpoint where
  supportsReasoning : Bool := false
  supportsMultipart : Bool := false
  supportsToolParameters : Bool := false
  supportedParameters : Option (List String) := none
  reasoningConfig : Bool := false
  isFree : Bool := false
  pricing : Option ModelPricing := none
deriving DecidableEq

/-- An enhanced model record; only the fields read by
`get_models_by_capability`.  `endpoint` distinguishes an absent key
(`none`, treated as the empty dict `{}`) from an explicit null
(`some none`, which makes the record be skipped); `reasoningConfig` and
`inputModalities` are `model.get('reasoning_config')` (truthiness) and
`model.get('input_modalities', [])`. -/
structure ModelRec where
  endpoint : Option (Option ModelEndpoint) := none
  reasoningConfig : Bool := false
  inputModalities : List String := []
deriving DecidableEq

/-- The prompt price used by the `"free"` branch:
`float(pricing.get('prompt', '0'))` after `pricing = endpoint.get('pricing',
{})` and the null check. -/
def promptPrice (e : ModelEndpoint) : ℚ :=
  match e.pricing with
  | none => 0
  | some p =>
    match p.prompt with
    | none => 0
    | some q => q

/-- `get_models_by_capability` (src/api_client.py, lines 68-126), as a pure
function of the already-fetched enhanced model list (elements may be `None`).
`"all"` returns the list unchanged; otherwise `None` records and records with
an explicit null `endpoint` are skipped, and a record is kept when the branch
for the requested capability accepts it (an unknown capability name keeps
nothing).  The network fetch and the blanket exception fallback to the basic
catalog are outside this embedding. -/
def get_models_by_capability (enhanced : List (Option ModelRec))
    (capability_filter : String) : List (Option ModelRec) :=
  if capability_filter = "all" then enhanced
  else
    enhanced.filterMap fun m? =>
      match m? with
      | none => none
      | some m =>
        let endpoint? : Option ModelEndpoint :=
          match m.endpoint with
          | none => some {}
          | some none => none
          | some (some e) => some e
        match endpoint? with
        | none => none
        | some endpoint =>
          if capability_filter = "reasoning" then
            if endpoint.supportsReasoning || m.reasoningConfig ||
                endpoint.reasoningConfig then some (some m) else none
          else if capability_filter = "multipart" then
            if endpoint.supportsMultipart ||
                m.inputModalities.contains "image" then some (some m) else none
          else if capability_filter = "tools" then
            let supported := endpoint.supportedParameters.getD []
            if endpoint.supportsToolParameters ||
                supported.contains "tools" then some (some m) else none
          else if capability_filter = "free" then
            if endpoint.isFree || promptPrice endpoint = 0 then some (some m)
            else none
          else none

/-! ### The send-turn fragment of the chat loop (src/chat.py, lines 893-1094) -/

/-- The outcome of the streaming request of one turn, abstracting the network
and the remote API.  `success content` is an HTTP 200 whose stream produced
`content` (the value of `stream_response`); `httpError status` a non-200
response; `networkError` a `requests` exception (or any other exception in
the request block). -/
inductive SendOutcome where
  | success (content : String)
  | httpError (status : Nat)
  | networkError
deriving DecidableEq, Repr

/-- The rollback idiom repeated at src/chat.py lines 1027-1029, 1072-1074,
1081-1083 and 1090-1092: `if conversation_history and
conversation_history[-1]["role"] == "user": conversation_history.pop()`. -/
def popUserIfLast (l : List Message) : List Message :=
  match l.getLast? with
  | some m => if m.role = Role.user then l.dropLast else l
  | none => l

/-- The history evolution of one plain-message turn of `chat_with_model`
(src/chat.py, lines 893-1094): append the user message (line 900), trim the
context window (line 911), then issue the request.  On success with non-empty
content the assistant reply is appended (line 977) and the trailing rollback
check of lines 1072-1074 (which runs after the whole `if/else` on the status
code) finds an assistant tail and does nothing; on empty content the rollback
runs twice (lines 1027-1029 and 1072-1074); on a non-200 status or an
exception it runs once.  `none` models the `IndexError` of
`manage_context_window` on an empty appended history (unreachable, since the
appended history is never empty). -/
def send_turn (tc : String → Nat) (maxT : Nat) (history : List Message)
    (userInput : String) (outcome : SendOutcome) : Option (List Message) :=
  let h1 := history ++ [⟨Role.user, userInput⟩]
  match manage_context_window tc h1 maxT with
  | none => none
  | some (h2, _trimmed) =>
    match outcome with
    | .success c =>
      if c ≠ "" then some (popUserIfLast (h2 ++ [⟨Role.assistant, c⟩]))
      else some (popUserIfLast (popUserIfLast h2))
    | .httpError _ => some (popUserIfLast h2)
    | .networkError => some (popUserIfLast h2)

example : send_turn (fun s => s.length) 100 [⟨Role.system, "s"⟩] "hi"
    (.success "ok")
    = some [⟨Role.system, "s"⟩, ⟨Role.user, "hi"⟩, ⟨Role.assistant, "ok"⟩] := by
  decide

example : send_turn (fun s => s.length) 100 [⟨Role.system, "s"⟩] "hi"
    .networkError = some [⟨Role.system, "s"⟩] := by decide

/-! ### Concrete instances used in the theorems below -/

/-- The text after the first opening thinking tag of a delta:
`content.split("<thinking>", 1)[1]` (the delta itself when the tag is
absent). -/
def afterOpenTag (content : String) : String :=
  match splitFirstStr thinkOpen content with
  | some (_, aft) => aft
  | none => content

/-- The three content deltas of the split-tag streaming scenario: the
thinking tags are split across chunk boundaries. -/
def splitTagChunks : List StreamChunk :=
  [.event none "<thi", .event none "nking>hello</thi", .event none "nking> world"]

/-- A single delta with visible text before the opening thinking tag. -/
def prefixedTagChunks : List StreamChunk :=
  [.event none "abc<thinking>x</thinking>def"]

/-- A system message of 1600 tokens under the counter charging 100 tokens
per character (standing in for a very long system prompt under a per-subword
counter). -/
def bigSystemMsg : Message :=
  ⟨Role.system, "0123456789abcdef"⟩

/-- A model whose endpoint declares `is_free`. -/
def freeModelA : ModelRec :=
  { endpoint := some (some { isFree := true }) }

/-- A model whose endpoint has a prompt price `q` and no `is_free` flag. -/
def paidModelB (q : ℚ) : ModelRec :=
  { endpoint := some (some { pricing := some { prompt := some q } }) }

/-- A three-message history that overflows a budget of 10 under a
one-token-per-character counter. -/
def cexHistory : List Message :=
  [⟨Role.system, "aaaa"⟩, ⟨Role.assistant, "bbbb"⟩, ⟨Role.assistant, "cccc"⟩]

/-! ## Helper lemmas -/

theorem tokenSum_nil (tc : String → Nat) : tokenSum tc [] = 0 := rfl

theorem tokenSum_cons (tc : String → Nat) (m : Message) (l : List Message) :
    tokenSum tc (m :: l) = tc m.content + tokenSum tc l := by
  simp [tokenSum]

theorem tokenSum_append (tc : String → Nat) (l₁ l₂ : List Message) :
    tokenSum tc (l₁ ++ l₂) = tokenSum tc l₁ + tokenSum tc l₂ := by
  simp [tokenSum]

/-- Unfolding `manage_context_window` in the under-budget case. -/
theorem mcw_of_le (tc : String → Nat) (maxT : Nat) (h : List Message)
    (hne : h ≠ []) (hle : tokenSum tc h ≤ maxT) :
    manage_context_window tc h maxT = some (h, 0) := by
  cases h with
  | nil => exact absurd rfl hne
  | cons sys rest => simp [manage_context_window, hle]

/-- Unfolding `manage_context_window` in the over-budget case. -/
theorem mcw_of_gt (tc : String → Nat) (maxT : Nat) (sys : Message)
    (rest : List Message) (hgt : maxT < tokenSum tc (sys :: rest)) :
    manage_context_window tc (sys :: rest) maxT =
      (if 0 < (trimLoop tc maxT rest.reverse (tc sys.content)).2.2 then
        some (sys :: trimNote (trimLoop tc maxT rest.reverse (tc sys.content)).2.2 ::
          (trimLoop tc maxT rest.reverse (tc sys.content)).1,
          (trimLoop tc maxT rest.reverse (tc sys.content)).2.2)
      else
        some (sys :: (trimLoop tc maxT rest.reverse (tc sys.content)).1,
          (trimLoop tc maxT rest.reverse (tc sys.content)).2.2)) := by
  have hnle : ¬ tokenSum tc (sys :: rest) ≤ maxT := by omega
  simp [manage_context_window, hnle]

/-- The final `current_tokens` of the greedy walk is the initial value plus
the token total of the kept messages. -/
theorem trimLoop_cur_eq (tc : String → Nat) (maxT : Nat) :
    ∀ (ms : List Message) (cur : Nat),
      (trimLoop tc maxT ms cur).2.1 =
        cur + tokenSum tc (trimLoop tc maxT ms cur).1
  | [], cur => by simp [trimLoop, tokenSum]
  | m :: rest, cur => by
    by_cases hg : (cur : Int) + (tc m.content : Int) < (maxT : Int) - 1000
    · have ih := trimLoop_cur_eq tc maxT rest (cur + tc m.content)
      simp only [trimLoop, if_pos hg, tokenSum_append, tokenSum_cons, tokenSum_nil]
      omega
    · have ih := trimLoop_cur_eq tc maxT rest cur
      simpa only [trimLoop, if_neg hg] using ih

/-- The greedy walk never pushes `current_tokens` past the reserved margin:
if it starts at or under `max_tokens - 1000` it ends at or under it. -/
theorem trimLoop_cur_le (tc : String → Nat) (maxT : Nat) :
    ∀ (ms : List Message) (cur : Nat), cur ≤ maxT - 1000 →
      (trimLoop tc maxT ms cur).2.1 ≤ maxT - 1000
  | [], cur, hcur => by simpa [trimLoop] using hcur
  | m :: rest, cur, hcur => by
    by_cases hg : (cur : Int) + (tc m.content : Int) < (maxT : Int) - 1000
    · have hle : cur + tc m.content ≤ maxT - 1000 := by omega
      have ih := trimLoop_cur_le tc maxT rest (cur + tc m.content) hle
      simpa only [trimLoop, if_pos hg] using ih
    · have ih := trimLoop_cur_le tc maxT rest cur hcur
      simpa only [trimLoop, if_neg hg] using ih

/-! ## Claims about the context window manager -/

/-- Claim C2 (amended): for every **non-empty** conversation history whose
total token count is at most the budget, `manage_context_window` returns the
history unchanged with a dropped count of 0.  (On the empty history the
function raises `IndexError` instead of returning — see the counterexample
`manage_context_window_empty_cex`.) -/
theorem manage_context_window_no_trim (tc : String → Nat) (maxT : Nat)
    (h : List Message) (hne : h ≠ []) (hle : tokenSum tc h ≤ maxT) :
    manage_context_window tc h maxT = some (h, 0) :=
  mcw_of_le tc maxT h hne hle

/-- Witness for `manage_context_window_no_trim` at a concrete history. -/
theorem manage_context_window_no_trim_witness :
    manage_context_window (fun s => s.length)
      [⟨Role.system, "be helpful"⟩, ⟨Role.user, "hi"⟩] 8000
      = some ([⟨Role.system, "be helpful"⟩, ⟨Role.user, "hi"⟩], 0) :=
  manage_context_window_no_trim (fun s => s.length) 8000
    [⟨Role.system, "be helpful"⟩, ⟨Role.user, "hi"⟩] (by decide) (by decide)

/-- Counterexample to claim C2 as stated: on the empty history (whose token
total, 0, is at most the budget) `manage_context_window` does not return the
history unchanged — the unconditional `conversation_history[0]` access fails
(`none` in this total embedding). -/
theorem manage_context_window_empty_cex :
    manage_context_window (fun s => s.length) [] 8000 = none ∧
    manage_context_window (fun s => s.length) [] 8000 ≠ some ([], 0) := by
  exact ⟨rfl, by decide⟩

/-- Claim C10: `manage_context_window` is defined only on non-empty
histories: on the empty history the index-0 access fails (`none`), and on
every non-empty history and every budget it returns `some` non-empty history
together with a (necessarily non-negative, being a `Nat`) dropped count. -/
theorem manage_context_window_domain (tc : String → Nat) (maxT : Nat) :
    manage_context_window tc [] maxT = none ∧
    ∀ h : List Message, h ≠ [] →
      ∃ r d, manage_context_window tc h maxT = some (r, d) ∧ r ≠ [] := by
  refine ⟨rfl, fun h hne => ?_⟩
  cases h with
  | nil => exact absurd rfl hne
  | cons sys rest =>
    by_cases hle : tokenSum tc (sys :: rest) ≤ maxT
    · exact ⟨sys :: rest, 0, mcw_of_le tc maxT (sys :: rest) hne hle, by simp⟩
    · rw [mcw_of_gt tc maxT sys rest (by omega)]
      by_cases hd : 0 < (trimLoop tc maxT rest.reverse (tc sys.content)).2.2
      · exact ⟨_, _, by rw [if_pos hd], by simp⟩
      · exact ⟨_, _, by rw [if_neg hd], by simp⟩

/-- Witness for `manage_context_window_domain` at a concrete non-empty
history. -/
theorem manage_context_window_domain_witness :
    ∃ r d, manage_context_window (fun s => s.length)
      [⟨Role.system, "be helpful"⟩] 50 = some (r, d) ∧ r ≠ [] :=
  (manage_context_window_domain (fun s => s.length) 50).2
    [⟨Role.system, "be helpful"⟩] (by decide)

/-- Claim C1 (amended): for every non-empty history whose token total
exceeds the budget, the trimmed result's first element equals the input's
first element (the original system message) unconditionally; and **provided
the system message's own token count is at most `max_tokens - 1000`**, the
token total of the returned sequence excluding the synthesized trimming
notice is at most `max_tokens - 1000`.  (The proviso is forced: the system
message is always kept whole, so when it alone exceeds the margin the bound
fails — see `manage_context_window_margin_cex`.) -/
theorem manage_context_window_trim_bound (tc : String → Nat) (maxT : Nat)
    (sys : Message) (rest : List Message)
    (hover : maxT < tokenSum tc (sys :: rest)) :
    ∃ r d, manage_context_window tc (sys :: rest) maxT = some (r, d) ∧
      r.head? = some sys ∧
      (tc sys.content ≤ maxT - 1000 →
        tokenSum tc (excludeNote r d) ≤ maxT - 1000) := by
  rw [mcw_of_gt tc maxT sys rest hover]
  have h1 := trimLoop_cur_eq tc maxT rest.reverse (tc sys.content)
  by_cases hd : 0 < (trimLoop tc maxT rest.reverse (tc sys.content)).2.2
  · rw [if_pos hd]
    refine ⟨_, _, rfl, rfl, fun hsys => ?_⟩
    have h2 := trimLoop_cur_le tc maxT rest.reverse (tc sys.content) hsys
    have hex : excludeNote
        (sys :: trimNote (trimLoop tc maxT rest.reverse (tc sys.content)).2.2 ::
          (trimLoop tc maxT rest.reverse (tc sys.content)).1)
        (trimLoop tc maxT rest.reverse (tc sys.content)).2.2
        = sys :: (trimLoop tc maxT rest.reverse (tc sys.content)).1 := by
      simp [excludeNote, hd]
    rw [hex, tokenSum_cons]
    omega
  · rw [if_neg hd]
    refine ⟨_, _, rfl, rfl, fun hsys => ?_⟩
    have h2 := trimLoop_cur_le tc maxT rest.reverse (tc sys.content) hsys
    have hex : excludeNote
        (sys :: (trimLoop tc maxT rest.reverse (tc sys.content)).1)
        (trimLoop tc maxT rest.reverse (tc sys.content)).2.2
        = sys :: (trimLoop tc maxT rest.reverse (tc sys.content)).1 := by
      simp [excludeNote, hd]
    rw [hex, tokenSum_cons]
    omega

/-- Witness for `manage_context_window_trim_bound` at a concrete over-budget
history (the counter charges 100 tokens per character, so short literals
stand in for long messages). -/
theorem manage_context_window_trim_bound_witness :
    ∃ r d, manage_context_window (fun s => 100 * s.length)
      [⟨Role.system, "sys"⟩, ⟨Role.user, "0123456789abcdef"⟩,
        ⟨Role.assistant, "ok"⟩] 1500 = some (r, d) ∧
      r.head? = some ⟨Role.system, "sys"⟩ ∧
      ((fun s : String => 100 * s.length) "sys" ≤ 1500 - 1000 →
        tokenSum (fun s => 100 * s.length) (excludeNote r d) ≤ 1500 - 1000) :=
  manage_context_window_trim_bound (fun s => 100 * s.length) 1500
    ⟨Role.system, "sys"⟩
    [⟨Role.user, "0123456789abcdef"⟩, ⟨Role.assistant, "ok"⟩]
    (by decide)

/-- Counterexample to claim C1 as stated: the single-message history
`[bigSystemMsg]` (1600 tokens) exceeds the budget 1500, yet the returned
sequence — which contains no trimming notice — has token total 1600, far
above `budget - margin = 500`: the system message is kept regardless of its
size, so the claimed bound fails whenever it alone exceeds the margin. -/
theorem manage_context_window_margin_cex :
    1500 < tokenSum (fun s => 100 * s.length) [bigSystemMsg] ∧
    manage_context_window (fun s => 100 * s.length) [bigSystemMsg] 1500
      = some ([bigSystemMsg], 0) ∧
    ¬ tokenSum (fun s => 100 * s.length) (excludeNote [bigSystemMsg] 0)
        ≤ 1500 - 1000 := by
  refine ⟨by decide, by decide, by decide⟩

/-! ## Claims about the credential store -/

/-- Claim C3: for every non-empty key string and every master key,
decrypting the encryption of the key with the same master key returns the
key, and decrypting it with a different master key returns `None` (the
`InvalidToken` exception is caught by `decrypt_api_key`'s blanket handler)
rather than raising. -/
theorem api_key_roundtrip (api_key : String) (master other : Nat)
    ( _hk : api_key ≠ "") (hm : other ≠ master) :
    decrypt_api_key (encrypt_api_key api_key master) master = some api_key ∧
    decrypt_api_key (encrypt_api_key api_key master) other = none := by
  refine ⟨?_, ?_⟩
  · simp [decrypt_api_key, encrypt_api_key, fernetDecrypt, fernetEncrypt]
  · simp [decrypt_api_key, encrypt_api_key, fernetDecrypt, fernetEncrypt]
    exact fun h => absurd h.symm hm

/-- Witness for `api_key_roundtrip` at a concrete key and two concrete
master keys. -/
theorem api_key_roundtrip_witness :
    decrypt_api_key (encrypt_api_key "sk-or-v1-0123456789abcdef" 17) 17
      = some "sk-or-v1-0123456789abcdef" ∧
    decrypt_api_key (encrypt_api_key "sk-or-v1-0123456789abcdef" 17) 99
      = none :=
  api_key_roundtrip "sk-or-v1-0123456789abcdef" 17 99 (by decide) (by decide)

/-! ## Claims about the token counter -/

/-- Claim C9: `count_tokens` is total — it returns a token estimate for
every text and model identifier (totality is the type of the embedding: no
exceptional outcome exists).  When the model-specific encoding cannot be
resolved (`encoding_for_model` raises `KeyError`) it falls back to the
single default `cl100k_base` encoding; and the `text_utils` variant, when no
tokenizer library is importable, falls back to the fixed ratio
`len(text) // 4`. -/
theorem count_tokens_fallbacks (env : TokenizerEnv) (text model_name : String)
    (hresolve : env.encodingForModel model_name = none) :
    count_tokens env text model_name = env.cl100kBase text ∧
    text_utils_count_tokens false env text model_name = text.length / 4 := by
  refine ⟨?_, ?_⟩
  · simp [count_tokens, hresolve]
  · simp [text_utils_count_tokens]

/-- Witness for `count_tokens_fallbacks` at a concrete environment that
resolves no model name. -/
theorem count_tokens_fallbacks_witness :
    count_tokens ⟨fun _ => none, fun s => s.length⟩ "hello world"
        "mystery-model" = 11 ∧
    text_utils_count_tokens false ⟨fun _ => none, fun s => s.length⟩
        "hello world" "mystery-model" = 2 := by
  have h := count_tokens_fallbacks ⟨fun _ => none, fun s => s.length⟩
    "hello world" "mystery-model" rfl
  exact ⟨h.1.trans (by decide), h.2.trans (by decide)⟩

/-! ## Claims about the model catalog filter -/

/-- Claim C8: filtering by capability `"free"` over a model set containing
one model with `is_free` true and one model with a nonzero prompt price (and
`is_free` absent, i.e. defaulting to false) returns exactly the list
containing the first model. -/
theorem get_models_by_capability_free (q : ℚ) (hq : q ≠ 0) :
    get_models_by_capability [some freeModelA, some (paidModelB q)] "free"
      = [some freeModelA] := by
  simp [get_models_by_capability, freeModelA, paidModelB, promptPrice, hq]

/-- Witness for `get_models_by_capability_free` at the concrete price 3. -/
theorem get_models_by_capability_free_witness :
    get_models_by_capability [some freeModelA, some (paidModelB 3)] "free"
      = [some freeModelA] :=
  get_models_by_capability_free 3 (by norm_num)

/-! ## Claims about the chat session loop -/

/-- Popping after appending a user message undoes the append. -/
theorem popUserIfLast_concat_user (l : List Message) (s : String) :
    popUserIfLast (l ++ [⟨Role.user, s⟩]) = l := by
  simp [popUserIfLast, List.getLast?_concat, List.dropLast_concat]

/-- The rollback is the identity when the history does not end with a
user-role message. -/
theorem popUserIfLast_of_not_user (l : List Message)
    (h : ∀ m ∈ l.getLast?, m.role ≠ Role.user) : popUserIfLast l = l := by
  unfold popUserIfLast
  cases hl : l.getLast? with
  | none => rfl
  | some m =>
    have hm := h m (by simp [hl])
    simp [hm]

/-- Claim C4 (amended): provided no context trimming occurs (the token total
of the history including the just-appended user message is within the
budget), a network exception — and likewise a non-200 status — leaves the
conversation history exactly unchanged (the appended user message is rolled
back), and an empty-content failure leaves it unchanged as long as the prior
history did not already end with a user turn (its rollback runs twice: once
in the empty-content branch and once in the trailing check).  When trimming
does occur the history length can change — see `send_turn_trim_length_cex`,
which is what forces the no-trimming proviso. -/
theorem send_turn_rollback_no_trim (tc : String → Nat) (maxT : Nat)
    (history : List Message) (input : String)
    (hle : tokenSum tc (history ++ [⟨Role.user, input⟩]) ≤ maxT) :
    send_turn tc maxT history input .networkError = some history ∧
    (∀ s : Nat, send_turn tc maxT history input (.httpError s) = some history) ∧
    ((∀ m ∈ history.getLast?, m.role ≠ Role.user) →
      send_turn tc maxT history input (.success "") = some history) := by
  have hne : history ++ [⟨Role.user, input⟩] ≠ ([] : List Message) := by simp
  have hmcw := mcw_of_le tc maxT _ hne hle
  simp only [send_turn, hmcw]
  refine ⟨?_, fun s => ?_, fun hlast => ?_⟩
  · simp [popUserIfLast_concat_user]
  · simp [popUserIfLast_concat_user]
  · simp [popUserIfLast_concat_user, popUserIfLast_of_not_user history hlast]

/-- Witness for `send_turn_rollback_no_trim` at a concrete in-budget
history. -/
theorem send_turn_rollback_no_trim_witness :
    send_turn (fun s => s.length) 100
      [⟨Role.system, "be helpful"⟩, ⟨Role.assistant, "hello"⟩] "hi there"
      .networkError
      = some [⟨Role.system, "be helpful"⟩, ⟨Role.assistant, "hello"⟩] :=
  (send_turn_rollback_no_trim (fun s => s.length) 100
    [⟨Role.system, "be helpful"⟩, ⟨Role.assistant, "hello"⟩] "hi there"
    (by decide)).1

/-- Counterexample to claim C4 as stated: with budget 10 the appended user
message triggers trimming, which rebuilds the history as the system message
plus the synthesized note; after the network-exception rollback the history
has length 2, not the original 3 — the length is not left unchanged. -/
theorem send_turn_trim_length_cex :
    (send_turn (fun s => s.length) 10 cexHistory "dd" .networkError).map
        List.length = some 2 ∧
    cexHistory.length = 3 := by
  exact ⟨by decide, rfl⟩

/-! ## Claims about the streaming response parser -/

/-- Counterexample to claim C5 as stated: on the three split-tag deltas the
visible content returned by `stream_response` is `"world"`, not `" world"` —
the cleaned content is passed through `strip()` (src/chat.py line 132), which
removes the leading space left behind by erasing the thinking span. -/
theorem stream_split_tag_cex :
    (stream_response true splitTagChunks).1 = "world" ∧
    (stream_response true splitTagChunks).1 ≠ " world" := by
  exact ⟨by decide, by decide⟩

/-- Claim C5 (amended): with thinking mode enabled, feeding the three
content deltas `"<thi"`, `"nking>hello</thi"`, `"nking> world"` as separate
chunks yields thinking content `"hello"` and visible content `"world"` (the
surrounding whitespace is stripped): the tag split across chunk boundaries is
still detected, by the final regex pass over the full buffer. -/
theorem stream_split_tag_result :
    (stream_response true splitTagChunks).2.1 = some "hello" ∧
    (stream_response true splitTagChunks).1 = "world" := by
  exact ⟨by decide, by decide⟩

/-- Claim C6: a stream containing only the `[DONE]` sentinel and no content
deltas yields the fixed fallback greeting as visible content; and more
generally, whenever the cleaned content is blank after stripping thinking
spans, `stream_response` returns the fallback greeting. -/
theorem stream_done_fallback :
    (∀ tm : Bool, (stream_response tm [.done]).1 = fallbackGreeting) ∧
    (∀ (tm : Bool) (chunks : List StreamChunk),
      pyStrip (cleanedBeforeFallback tm (runStream tm chunks).1.full) = "" →
      (stream_response tm chunks).1 = fallbackGreeting) := by
  refine ⟨fun tm => by cases tm <;> rfl, fun tm chunks h => ?_⟩
  simp only [stream_response, finalizeStream]
  rw [if_pos h]

/-- Witness for the hypothesis-bearing part of `stream_done_fallback`, at
the empty stream. -/
theorem stream_done_fallback_witness :
    pyStrip (cleanedBeforeFallback false (runStream false []).1.full) = "" ∧
    (stream_response false []).1 = fallbackGreeting :=
  ⟨by decide, stream_done_fallback.2 false [] (by decide)⟩

/-- Counterexample to claim C7 as stated: on the single delta
`"abc<thinking>x</thinking>def"` the text `"abc"` preceding the opening tag
does appear in the visible content produced by the parser — the final
cleaned content is `"abcdef"` — because the authoritative re-extraction pass
works on the full buffer, to which every delta was appended unconditionally,
and only erases the tagged span. -/
theorem stream_prefixed_tag_cex :
    (stream_response true prefixedTagChunks).1 = "abcdef" ∧
    containsSubStr "abc" (stream_response true prefixedTagChunks).1 = true := by
  exact ⟨by decide, by decide⟩

/-- Claim C7 (amended): with thinking mode enabled, a content delta arriving
in the `NORMAL` state that contains an opening thinking tag is never queued
for incremental display — `collected_content` is unchanged, so the text
before the tag is discarded from the incremental display path — and the
whole text after the tag goes to the thinking accumulator, entering the
`IN_THINKING` state.  The text before the tag is however retained in the
full buffer, and hence can reappear in the final cleaned visible content
(see `stream_prefixed_tag_cex`). -/
theorem processContent_open_tag (st : StreamState) (content : String)
    ( _hn : st.inThinking = false)
    (hc : containsSubStr thinkOpen content = true) :
    (processContent true st content).collected = st.collected ∧
    (processContent true st content).thinking
      = st.thinking ++ afterOpenTag content ∧
    (processContent true st content).inThinking = true ∧
    (processContent true st content).full = st.full ++ content := by
  have hs : (splitFirstStr thinkOpen content).isSome := hc
  obtain ⟨⟨pre, post⟩, heq⟩ := Option.isSome_iff_exists.mp hs
  simp [processContent, heq, afterOpenTag]

/-- Witness for `processContent_open_tag` at a concrete state and delta. -/
theorem processContent_open_tag_witness :
    (processContent true ⟨"", "", false, []⟩ "abc<thinking>x").collected
      = ([] : List String) ∧
    (processContent true ⟨"", "", false, []⟩ "abc<thinking>x").thinking
      = "x" :=
  have h := processContent_open_tag ⟨"", "", false, []⟩ "abc<thinking>x"
    rfl (by decide)
  ⟨h.1, h.2.1.trans (by decide)⟩
